import Mathlib

/-!
Shallow embedding of the EmuFlight IMU core (`src/src/main/flight/imu.c`) and
proofs about it.  C `float` values are modelled as exact rationals; C integers
are modelled as `Int`/`Nat` (with explicit wrap-around where a `uint32_t`
addition can overflow).  Library math routines that live outside `src/`
(`cos_approx`, `sin_approx`, `atan2_approx`, `acos_approx`, `invSqrt`) are
taken as function parameters of the embedding, so every theorem quantifies
over them, exactly as the C code is parametric in those approximations.
-/

namespace EmuIMU

/-- Quaternion `(w,x,y,z)`: the `quaternion` struct of the source; floats
modelled as exact rationals. -/
structure Quat where
  w : ℚ
  x : ℚ
  y : ℚ
  z : ℚ
  deriving DecidableEq, Repr

/-- Quaternion product cache: the `quaternionProducts` struct.  The ten
products `ww..zz` plus the `(w,x,y,z)` copy used by
`imuQuaternionMultiplicationProd` and `imuComputeMotorQuatOffset`
(the struct itself is declared in `flight/imu.h`, which is not under `src/`;
its field set is exactly the set of fields accessed by `imu.c`). -/
structure QuatProducts where
  w : ℚ
  x : ℚ
  y : ℚ
  z : ℚ
  ww : ℚ
  wx : ℚ
  wy : ℚ
  wz : ℚ
  xx : ℚ
  xy : ℚ
  xz : ℚ
  yy : ℚ
  yz : ℚ
  zz : ℚ
  deriving DecidableEq, Repr

/-- Squared norm of a quaternion (`sq(w)+sq(x)+sq(y)+sq(z)` in the source). -/
def normSq (q : Quat) : ℚ := q.w * q.w + q.x * q.x + q.y * q.y + q.z * q.z

/-- The quaternion `(w,x,y,z)` stored in a product cache. -/
def quatOfProducts (p : QuatProducts) : Quat := ⟨p.w, p.x, p.y, p.z⟩

/-- Scaling a quaternion by `invSqrtF (normSq q)`: the normalisation step
`recipNorm = invSqrt(sq(w)+sq(x)+sq(y)+sq(z)); w *= recipNorm; ...` shared by
the multiplication routines.  `invSqrtF` models the `invSqrt` library call
(`1.0f / sqrtf(x)`), which lives outside `src/`. -/
def normalizeWith (invSqrtF : ℚ → ℚ) (q : Quat) : Quat :=
  let recipNorm := invSqrtF (normSq q)
  ⟨q.w * recipNorm, q.x * recipNorm, q.y * recipNorm, q.z * recipNorm⟩

/-- Embedding of `imuQuaternionMultiplication` (imu.c lines 815-830): the
reduced 8-multiply product.  Note the source does NOT normalise this result. -/
def imuQuaternionMultiplication (q1 q2 : Quat) : Quat :=
  let A := (q1.w + q1.x) * (q2.w + q2.x)
  let B := (q1.z - q1.y) * (q2.y - q2.z)
  let C := (q1.w - q1.x) * (q2.y + q2.z)
  let D := (q1.y + q1.z) * (q2.w - q2.x)
  let E := (q1.x + q1.z) * (q2.x + q2.y)
  let F := (q1.x - q1.z) * (q2.x - q2.y)
  let G := (q1.w + q1.y) * (q2.w - q2.z)
  let H := (q1.w - q1.y) * (q2.w + q2.z)
  ⟨B + (-E - F + G + H) / 2,
   A - (E + F + G + H) / 2,
   C + (E - F + G - H) / 2,
   D + (E - F - G + H) / 2⟩

/-- The straightforward 16-multiply Hamilton product, written from the spec
(section 4.1, `mul(q1, q2)`), to be compared with the source's reduced form. -/
def hamiltonProduct (q1 q2 : Quat) : Quat :=
  ⟨q1.w * q2.w - q1.x * q2.x - q1.y * q2.y - q1.z * q2.z,
   q1.w * q2.x + q1.x * q2.w + q1.y * q2.z - q1.z * q2.y,
   q1.w * q2.y - q1.x * q2.z + q1.y * q2.w + q1.z * q2.x,
   q1.w * q2.z + q1.x * q2.y - q1.y * q2.x + q1.z * q2.w⟩

/-- The unnormalised result of `imuQuaternionMultiplicationProd`
(imu.c lines 322-347): the A..H grouping, with the second operand read from a
product cache; `order = 1` keeps operand order, any other order swaps. -/
def imuQuaternionMultiplicationProdRaw (q1 : Quat) (q2 : QuatProducts) (order : ℤ) : Quat :=
  let A := if order = 1 then (q1.w + q1.x) * (q2.w + q2.x) else (q2.w + q2.x) * (q1.w + q1.x)
  let B := if order = 1 then (q1.z - q1.y) * (q2.y - q2.z) else (q2.z - q2.y) * (q1.y - q1.z)
  let C := if order = 1 then (q1.w - q1.x) * (q2.y + q2.z) else (q2.w - q2.x) * (q1.y + q1.z)
  let D := if order = 1 then (q1.y + q1.z) * (q2.w - q2.x) else (q2.y + q2.z) * (q1.w - q1.x)
  let E := if order = 1 then (q1.x + q1.z) * (q2.x + q2.y) else (q2.x + q2.z) * (q1.x + q1.y)
  let F := if order = 1 then (q1.x - q1.z) * (q2.x - q2.y) else (q2.x - q2.z) * (q1.x - q1.y)
  let G := if order = 1 then (q1.w + q1.y) * (q2.w - q2.z) else (q2.w + q2.y) * (q1.w - q1.z)
  let H := if order = 1 then (q1.w - q1.y) * (q2.w + q2.z) else (q2.w - q2.y) * (q1.w + q1.z)
  ⟨B + (-E - F + G + H) / 2,
   A - (E + F + G + H) / 2,
   C + (E - F + G - H) / 2,
   D + (E - F - G + H) / 2⟩

/-- Embedding of `imuQuaternionMultiplicationProd` (imu.c lines 322-354):
the reduced product followed by the in-place normalisation. -/
def imuQuaternionMultiplicationProd (invSqrtF : ℚ → ℚ) (q1 : Quat) (q2 : QuatProducts)
    (order : ℤ) : Quat :=
  normalizeWith invSqrtF (imuQuaternionMultiplicationProdRaw q1 q2 order)

/-- Embedding of `scaleRangef` (`common/maths.c`, not under `src/`).
Modelled from the spec: the spec's accelerometer-health description
("linear from 0 at 0.5 to 1 at 1.0") fixes `scaleRangef x srcFrom srcTo
destFrom destTo` as the affine map sending the source range to the
destination range, which is also what the EmuFlight function computes
(`(destTo - destFrom) * (x - srcFrom) / (srcTo - srcFrom) + destFrom`). -/
def scaleRangef (x srcFrom srcTo destFrom destTo : ℚ) : ℚ :=
  (destTo - destFrom) * (x - srcFrom) / (srcTo - srcFrom) + destFrom

/-- Embedding of `imuIsAccelerometerHealthy` (imu.c lines 642-662).
Inputs: the three accelerometer averages and `acc.dev.acc_1G_rec`. -/
def imuIsAccelerometerHealthy (acc1GRec ax ay az : ℚ) : ℚ :=
  let accMagnitudeSq := (ax * ax + ay * ay + az * az) * (acc1GRec * acc1GRec)
  if 1/2 < accMagnitudeSq ∧ accMagnitudeSq < 169/100 then
    if accMagnitudeSq > 1 then
      scaleRangef accMagnitudeSq (1/2) 1 0 1
    else
      scaleRangef accMagnitudeSq 1 (169/100) 1 0
  else 0

/-- Value of the `M_PIf` constant (`common/maths.h`, not under `src/`):
the pi literal used by the source, modelled as the exact rational of the
written constant `3.14159265358979323846f`. -/
def M_PIf : ℚ := 3.14159265358979323846

/-- Decidegrees to radians (`DECIDEGREES_TO_RADIANS`, `common/maths.h`, not
under `src/`).  Modelled from the spec: angles in decidegrees are converted
by `a / 10 * (pi / 180)`. -/
def DECIDEGREES_TO_RADIANS (a : ℚ) : ℚ := a / 10 * (M_PIf / 180)

/-- Model of C `lrintf`: round to the nearest integer (ties modelled as
round-half-up, `Mathlib.round`). -/
def lrintf (v : ℚ) : ℤ := round v

/-- Rotation-matrix `rMat`, row major (`float rMat[3][3]`). -/
structure RMat where
  r00 : ℚ
  r01 : ℚ
  r02 : ℚ
  r10 : ℚ
  r11 : ℚ
  r12 : ℚ
  r20 : ℚ
  r21 : ℚ
  r22 : ℚ
  deriving DecidableEq, Repr

/-- Embedding of `imuQuaternionComputeProducts` (imu.c lines 154-166): the
ten products `ww..zz` of `q` are written into the cache; the `(w,x,y,z)`
copy fields of the cache are NOT written and keep their previous values. -/
def imuQuaternionComputeProducts (q : Quat) (qp : QuatProducts) : QuatProducts :=
  { qp with
    ww := q.w * q.w
    wx := q.w * q.x
    wy := q.w * q.y
    wz := q.w * q.z
    xx := q.x * q.x
    xy := q.x * q.y
    xz := q.x * q.z
    yy := q.y * q.y
    yz := q.y * q.z
    zz := q.z * q.z }

/-- The matrix synthesis of `imuComputeRotationMatrix` (imu.c lines 185-195),
non-simulator branch, reading the product cache. -/
def rMatOfProducts (p : QuatProducts) : RMat :=
  ⟨1 - 2 * p.yy - 2 * p.zz,
   2 * (p.xy + -p.wz),
   2 * (p.xz - -p.wy),
   2 * (p.xy - -p.wz),
   1 - 2 * p.xx - 2 * p.zz,
   2 * (p.yz + -p.wx),
   2 * (p.xz + -p.wy),
   2 * (p.yz - -p.wx),
   1 - 2 * p.xx - 2 * p.yy⟩

/-- The orientation state touched by the attitude-estimation path: the
module-level `q`, `qP` and `rMat` of imu.c. -/
structure IMUState where
  q : Quat
  qP : QuatProducts
  rMat : RMat
  deriving DecidableEq, Repr

/-- Embedding of `imuComputeRotationMatrix` (imu.c lines 182-201): recompute
the product cache from `q`, then synthesise `rMat` from the cache. -/
def imuComputeRotationMatrix (st : IMUState) : IMUState :=
  let qP := imuQuaternionComputeProducts st.q st.qP
  { st with qP := qP, rMat := rMatOfProducts qP }

/-- Embedding of `imuComputeQuaternionFromRPY` (imu.c lines 769-813), the
GPS-heading one-shot initializer.  `cosF`/`sinF` model `cos_approx` and
`sin_approx` (`common/maths.c`, not under `src/`).  The source computes the
half-angle quaternion `q0..q3`, writes only the product-cache fields
`xx,yy,zz,xy,xz,yz,wx,wy,wz` (not `w,x,y,z,ww` and not `q` itself) and then
calls `imuComputeRotationMatrix`, which recomputes the whole cache from the
unchanged `q`. -/
def imuComputeQuaternionFromRPY (cosF sinF : ℚ → ℚ) (st : IMUState)
    (initialRoll initialPitch initialYaw : ℤ) : IMUState :=
  let r := if initialRoll > 1800 then initialRoll - 3600 else initialRoll
  let p := if initialPitch > 1800 then initialPitch - 3600 else initialPitch
  let y := if initialYaw > 1800 then initialYaw - 3600 else initialYaw
  let cosRoll := cosF (DECIDEGREES_TO_RADIANS (r : ℚ) * (1/2))
  let sinRoll := sinF (DECIDEGREES_TO_RADIANS (r : ℚ) * (1/2))
  let cosPitch := cosF (DECIDEGREES_TO_RADIANS (p : ℚ) * (1/2))
  let sinPitch := sinF (DECIDEGREES_TO_RADIANS (p : ℚ) * (1/2))
  let cosYaw := cosF (DECIDEGREES_TO_RADIANS (-y : ℚ) * (1/2))
  let sinYaw := sinF (DECIDEGREES_TO_RADIANS (-y : ℚ) * (1/2))
  let q0 := cosRoll * cosPitch * cosYaw + sinRoll * sinPitch * sinYaw
  let q1 := sinRoll * cosPitch * cosYaw - cosRoll * sinPitch * sinYaw
  let q2 := cosRoll * sinPitch * cosYaw + sinRoll * cosPitch * sinYaw
  let q3 := cosRoll * cosPitch * sinYaw - sinRoll * sinPitch * cosYaw
  let qP := { st.qP with
    xx := q1 * q1
    yy := q2 * q2
    zz := q3 * q3
    xy := q1 * q2
    xz := q1 * q3
    yz := q2 * q3
    wx := q0 * q1
    wy := q0 * q2
    wz := q0 * q3 }
  imuComputeRotationMatrix { st with qP := qP }

/-- The `SPIN_RATE_LIMIT` constant (imu.c line 81), in degrees/second. -/
def SPIN_RATE_LIMIT : ℚ := 20

/-- Integral error terms `integralFBx/y/z` of `imuMahonyAHRSupdate`. -/
structure IntegralFB where
  x : ℚ
  y : ℚ
  z : ℚ
  deriving DecidableEq, Repr

/-- Embedding of the integral-feedback block of `imuMahonyAHRSupdate`
(imu.c lines 478-491).  The gyro rates are given here in degrees/second
(the caller's `gyroAverage` before the `DEGREES_TO_RADIANS` conversion):
the source's guard `sqrtf(sq(gx)+sq(gy)+sq(gz)) < DEGREES_TO_RADIANS(SPIN_RATE_LIMIT)`
on the rad/s rates is equivalent, because the conversion factor is positive
and square root is strictly monotone, to the decidable squared form
`gxDeg^2 + gyDeg^2 + gzDeg^2 < SPIN_RATE_LIMIT^2` used here. -/
def mahonyIntegralFeedback (dcm_ki : ℚ) (gxDeg gyDeg gzDeg : ℚ) (ex ey ez : ℚ)
    (dt useAcc : ℚ) (fb : IntegralFB) : IntegralFB :=
  if 0 < dcm_ki then
    if gxDeg * gxDeg + gyDeg * gyDeg + gzDeg * gzDeg < SPIN_RATE_LIMIT * SPIN_RATE_LIMIT then
      ⟨fb.x + dcm_ki * ex * dt * useAcc,
       fb.y + dcm_ki * ey * dt * useAcc,
       fb.z + dcm_ki * ez * dt * useAcc⟩
    else fb
  else ⟨0, 0, 0⟩

/-- `ATTITUDE_RESET_QUIET_TIME` (imu.c line 83), in microseconds. -/
def ATTITUDE_RESET_QUIET_TIME : ℕ := 250000

/-- `ATTITUDE_RESET_GYRO_LIMIT` (imu.c line 84), in degrees/second. -/
def ATTITUDE_RESET_GYRO_LIMIT : ℚ := 15

/-- `ATTITUDE_RESET_KP_GAIN` (imu.c line 85). -/
def ATTITUDE_RESET_KP_GAIN : ℚ := 25

/-- `ATTITUDE_RESET_ACTIVE_TIME` (imu.c line 86), in microseconds. -/
def ATTITUDE_RESET_ACTIVE_TIME : ℕ := 500000

/-- Modulus of the C `timeUs_t` (`uint32_t`) arithmetic. -/
def U32 : ℕ := 2 ^ 32

/-- The static locals of `imuCalcKpGain` (imu.c lines 672-675). -/
structure KpState where
  lastArmState : Bool
  gyroQuietPeriodTimeEnd : ℕ
  attitudeResetTimeEnd : ℕ
  attitudeResetCompleted : Bool
  deriving DecidableEq, Repr

/-- The attitude-reset state machine inside `imuCalcKpGain`
(imu.c lines 679-715): returns the updated static state and the local
`attitudeResetActive` flag.  `timeUs_t` additions wrap modulo `2^32`;
`!useAcc` on the C float is `useAcc = 0`. -/
def kpMachineStep (st : KpState) (currentTimeUs : ℕ) (useAcc gX gY gZ : ℚ)
    (armState : Bool) : KpState × Bool :=
  if armState then ({ st with lastArmState := armState }, false)
  else
    let gq1 := if st.lastArmState then (currentTimeUs + ATTITUDE_RESET_QUIET_TIME) % U32
               else st.gyroQuietPeriodTimeEnd
    let ar1 := if st.lastArmState then 0 else st.attitudeResetTimeEnd
    let ac1 := if st.lastArmState then false else st.attitudeResetCompleted
    let restartQuiet : Bool :=
      (decide (0 < ar1) || decide (0 < gq1) || ac1) &&
      (decide (ATTITUDE_RESET_GYRO_LIMIT < |gX|) || decide (ATTITUDE_RESET_GYRO_LIMIT < |gY|) ||
       decide (ATTITUDE_RESET_GYRO_LIMIT < |gZ|) || decide (useAcc = 0))
    let gq2 := if restartQuiet then (currentTimeUs + ATTITUDE_RESET_QUIET_TIME) % U32 else gq1
    let ar2 := if restartQuiet then 0 else ar1
    if 0 < ar2 then
      if ar2 ≤ currentTimeUs then (⟨armState, 0, 0, true⟩, false)
      else (⟨armState, gq2, ar2, ac1⟩, true)
    else if 0 < gq2 ∧ gq2 ≤ currentTimeUs then
      (⟨armState, 0, (currentTimeUs + ATTITUDE_RESET_ACTIVE_TIME) % U32, ac1⟩, false)
    else (⟨armState, gq2, ar2, ac1⟩, false)

/-- The fields of `imuRuntimeConfig` read by `imuCalcKpGain`.
`level_recovery_coef` is declared in `flight/imu.h`, which is not under
`src/`; modelled from the spec as exact rational arithmetic
(`Kp = base_kp * (1 + level_recovery_coef * strength / 1000)`). -/
structure KpConfig where
  dcm_kp : ℚ
  level_recovery_coef : ℚ
  deriving DecidableEq, Repr

/-- Embedding of the gain selection of `imuCalcKpGain` (imu.c lines 717-730):
`25.0` while the reset window is active, else `dcm_kp` (times `10` while
disarmed), and finally overwritten by the level-recovery value whenever
`levelRecoveryActive` holds. -/
def imuCalcKpGain (cfg : KpConfig) (st : KpState) (currentTimeUs : ℕ)
    (useAcc gX gY gZ : ℚ) (armState levelRecoveryActive : Bool)
    (levelRecoveryStrength : ℚ) : ℚ :=
  let attitudeResetActive := (kpMachineStep st currentTimeUs useAcc gX gY gZ armState).2
  let ret1 := if attitudeResetActive then ATTITUDE_RESET_KP_GAIN
              else if armState then cfg.dcm_kp else cfg.dcm_kp * 10
  if levelRecoveryActive then
    cfg.dcm_kp * (1 + cfg.level_recovery_coef * levelRecoveryStrength / 1000)
  else ret1

/-- The published Euler attitude (`attitude.values`, `int16_t` decidegrees;
under the `atan2`/`acos` range hypotheses used below the values fit in
`int16_t`, so plain integers model the fields without wrap). -/
structure AttitudeEuler where
  roll : ℤ
  pitch : ℤ
  yaw : ℤ
  deriving DecidableEq, Repr

/-- The attitude outputs of `imuUpdateEulerAngles` (imu.c lines 562-640).
`acosF`/`atan2F` model `acos_approx`/`atan2_approx` (`common/maths.c`, not
under `src/`).  Faithful to the source sequence: the head-free or rMat
extraction first (lines 567-577), then `attitude.values.roll` is overwritten
twice (lines 615 and 619) from `rMat` in both modes, and finally the yaw
wrap fix `if (yaw < 0) yaw += 3600` (lines 637-639).  The per-motor pipeline
between those lines does not write `attitude.values`. -/
def imuUpdateEulerAnglesAttitude (acosF : ℚ → ℚ) (atan2F : ℚ → ℚ → ℚ)
    (headfreeMode : Bool) (headfree : Quat) (r : RMat) : AttitudeEuler :=
  let hp := headfree
  let roll0 :=
    if headfreeMode then
      lrintf (atan2F (2 * (hp.w * hp.x + hp.y * hp.z)) (1 - 2 * (hp.x * hp.x + hp.y * hp.y))
              * (1800 / M_PIf))
    else lrintf ((M_PIf / 2 - acosF r.r21) * (1800 / M_PIf))
  let pitch0 :=
    if headfreeMode then
      lrintf ((M_PIf / 2 - acosF (2 * (hp.w * hp.y - hp.x * hp.z))) * (1800 / M_PIf))
    else lrintf ((M_PIf / 2 - acosF (-r.r20)) * (1800 / M_PIf))
  let yaw0 :=
    if headfreeMode then
      lrintf (-(atan2F (2 * (hp.w * hp.z + hp.x * hp.y)) (1 - 2 * (hp.y * hp.y + hp.z * hp.z)))
              * (1800 / M_PIf))
    else lrintf (-(atan2F r.r10 r.r00) * (1800 / M_PIf))
  let roll1 := lrintf (atan2F r.r21 r.r22 * (1800 / M_PIf))
  let roll2 := lrintf ((M_PIf / 2 - acosF r.r21) * (1800 / M_PIf))
  let yaw1 := if yaw0 < 0 then yaw0 + 3600 else yaw0
  -- attitude.values.roll is assigned three times (roll0 at lines 570/574,
  -- roll1 at line 615, roll2 at line 619); the last write is the published one
  { roll := roll2, pitch := pitch0, yaw := yaw1 }

/-- Embedding of `calculateThrottleAngleCorrection` (imu.c lines 910-924).
`acosF`/`sinF` model `acos_approx`/`sin_approx`; `cosTiltAngle` is
`getCosTiltAngle() = rMat[2][2]`.  Note the sine argument in the source is
`angle / (900.0f * M_PIf / 2.0f)`. -/
def calculateThrottleAngleCorrection (acosF sinF : ℚ → ℚ) (cosTiltAngle : ℚ)
    (throttleAngleScale : ℚ) (throttleAngleValue : ℤ) : ℤ :=
  if cosTiltAngle ≤ 15/1000 then 0
  else
    let angle0 := lrintf (acosF cosTiltAngle * throttleAngleScale)
    let angle := if angle0 > 900 then 900 else angle0
    lrintf ((throttleAngleValue : ℚ) * sinF ((angle : ℚ) / (900 * M_PIf / 2)))

/-- The claim's formula for throttle-angle correction, written from the spec
(section 4.5: `throttle_correction_value * sin(angle * pi / 1800)`), for
comparison with the source formula. -/
def claimThrottleAngleCorrection (acosF sinF : ℚ → ℚ) (cosTiltAngle : ℚ)
    (throttleAngleScale : ℚ) (throttleAngleValue : ℤ) : ℤ :=
  if cosTiltAngle ≤ 15/1000 then 0
  else
    let angle0 := lrintf (acosF cosTiltAngle * throttleAngleScale)
    let angle := if angle0 > 900 then 900 else angle0
    lrintf ((throttleAngleValue : ℚ) * sinF ((angle : ℚ) * M_PIf / 1800))

/-- Embedding of `imuQuaternionHeadfreeOffsetSet` (imu.c lines 1053-1067).
Inputs: the published attitude roll/pitch (decidegrees), the product cache
`qP` and the current `offset`; returns the C result and the new `offset`. -/
def imuQuaternionHeadfreeOffsetSet (cosF sinF : ℚ → ℚ) (atan2F : ℚ → ℚ → ℚ)
    (attRoll attPitch : ℤ) (qp : QuatProducts) (ofs : Quat) : Bool × Quat :=
  if |attRoll| < 450 ∧ |attPitch| < 450 then
    let yaw := -(atan2F (2 * (qp.wz + qp.xy)) (1 - 2 * (qp.yy + qp.zz)))
    (true, ⟨cosF (yaw / 2), 0, 0, sinF (yaw / 2)⟩)
  else (false, ofs)

/-- Embedding of `isUpright` (imu.c lines 1086-1093), `USE_ACC` branch:
`!sensors(SENSOR_ACC) || (attitudeIsEstablished && getCosTiltAngle() > smallAngleCosZ)`. -/
def isUpright (accPresent attitudeIsEstablished : Bool)
    (cosTiltAngle smallAngleCosZ : ℚ) : Bool :=
  !accPresent || (attitudeIsEstablished && decide (smallAngleCosZ < cosTiltAngle))

/-- Product cache of the identity quaternion (`QUATERNION_PRODUCTS_INITIALIZE`
with the `(w,x,y,z)` copy), used as a concrete test input. -/
def identityProducts : QuatProducts := ⟨1, 0, 0, 0, 1, 0, 0, 0, 0, 0, 0, 0, 0, 0⟩

/-- Helper: a rational within `[-B, B]` rounds to an integer within `[-B, B]`. -/
theorem round_le_of_abs_le (v : ℚ) (B : ℤ) (h : |v| ≤ (B : ℚ)) :
    -B ≤ round v ∧ round v ≤ B := by
  rw [abs_le] at h
  constructor
  · rw [round_eq]
    apply Int.le_floor.mpr
    push_cast
    linarith [h.1]
  · rw [round_eq]
    by_contra hc
    push_neg at hc
    have h2 : ((B + 1 : ℤ) : ℚ) ≤ v + 1/2 := Int.le_floor.mp hc
    push_cast at h2
    linarith [h.2]

/-- Helper: the final yaw wrap `if (yaw < 0) yaw += 3600` lands in `[0, 3600)`
whenever the pre-wrap value comes from rounding a rational in `[-1800, 1800]`. -/
theorem yaw_wrap_mem_range (v : ℚ) (h : |v| ≤ 1800) :
    0 ≤ (if lrintf v < 0 then lrintf v + 3600 else lrintf v) ∧
    (if lrintf v < 0 then lrintf v + 3600 else lrintf v) < 3600 := by
  obtain ⟨h1, h2⟩ := round_le_of_abs_le v 1800 (by exact_mod_cast h)
  unfold lrintf
  split <;> omega

/-- C1: the accelerometer-health tent is inverted in the code.  At
`accAverage = (1/2, 1/2, 1/2)` with `acc_1G_rec = 1` (so `m = |a|^2 = 3/4`,
inside the claimed rising segment), the source returns `94/69 ≈ 1.36`: not
the claimed linear value `1/2`, and outside the claimed strength range
`[0, 1]`.  The branch test `accMagnitudeSq > 1.0f` selects the
`scaleRangef(m, 0.5, 1.0, 0, 1)` (rising) leg for `m > 1` and the
`scaleRangef(m, 1.0, 1.69, 1, 0)` (falling) leg for `m ≤ 1`: the two legs
are swapped relative to the tent the spec (and the code's own comment
"Accept accel readings only in range 0.9g - 1.1g") describes. -/
theorem C1_accStrength_midband_bug :
    imuIsAccelerometerHealthy 1 (1/2) (1/2) (1/2) = 94/69 ∧
    imuIsAccelerometerHealthy 1 (1/2) (1/2) (1/2) ≠ 1/2 ∧
    1 < imuIsAccelerometerHealthy 1 (1/2) (1/2) (1/2) := by
  refine ⟨?_, ?_, ?_⟩ <;> norm_num [imuIsAccelerometerHealthy, scaleRangef]

/-- C2: the GPS-heading one-shot re-initialization has no effect on the
orientation.  `imuComputeQuaternionFromRPY` equals a bare
`imuComputeRotationMatrix` refresh of the existing state: the roll, pitch
and ground-course arguments (and the trig routines) are ignored, `q` is
unchanged, so the Euler yaw on the following tick cannot equal the ground
course (unless it already did).  The cause: the function writes only the
product-cache fields `xx..wz`, which `imuComputeRotationMatrix` immediately
recomputes from the untouched quaternion `q`. -/
theorem C2_gps_heading_reinit_ineffective (cosF sinF cosG sinG : ℚ → ℚ)
    (st : IMUState) (roll1 pitch1 course1 roll2 pitch2 course2 : ℤ) :
    imuComputeQuaternionFromRPY cosF sinF st roll1 pitch1 course1 =
      imuComputeRotationMatrix st ∧
    imuComputeQuaternionFromRPY cosG sinG st roll2 pitch2 course2 =
      imuComputeQuaternionFromRPY cosF sinF st roll1 pitch1 course1 ∧
    (imuComputeQuaternionFromRPY cosF sinF st roll1 pitch1 course1).q = st.q := by
  refine ⟨rfl, rfl, rfl⟩

/-- C3 counterexample: `imuQuaternionMultiplication` does not normalize its
result.  At `q1 = (2,0,0,0)`, `q2 = (1,0,0,0)` the result has squared norm
`4`, not `1`. -/
theorem C3_mul_result_not_unit :
    normSq (imuQuaternionMultiplication ⟨2, 0, 0, 0⟩ ⟨1, 0, 0, 0⟩) ≠ 1 := by
  norm_num [normSq, imuQuaternionMultiplication]

/-- C3 (amended): `imuQuaternionMultiplication` returns exactly the Hamilton
product `q1 ⊗ q2` — the reduced 8-multiply grouping is algebraically equal
to the 16-multiply form — with no normalization step. -/
theorem C3_mul_eq_hamilton (q1 q2 : Quat) :
    imuQuaternionMultiplication q1 q2 = hamiltonProduct q1 q2 := by
  cases q1; cases q2
  simp only [imuQuaternionMultiplication, hamiltonProduct, Quat.mk.injEq]
  refine ⟨by ring, by ring, by ring, by ring⟩

/-- C4: integral feedback of `imuMahonyAHRSupdate`.  With `ki > 0` and the
spin rate strictly below 20 deg/s each axis accumulates
`ki * e * dt * useAcc`; at or above 20 deg/s (the comparison is strict, so
exactly 20 deg/s holds the integrator) the integrator is unchanged; with
`ki = 0` it is reset to zero.  Spin rate is stated in the squared deg/s
form equivalent to the source's `sqrtf(...) < DEGREES_TO_RADIANS(20)`. -/
theorem C4_integral_feedback (dcm_ki gx gy gz ex ey ez dt useAcc : ℚ)
    (fb : IntegralFB) :
    (0 < dcm_ki → gx * gx + gy * gy + gz * gz < SPIN_RATE_LIMIT * SPIN_RATE_LIMIT →
       mahonyIntegralFeedback dcm_ki gx gy gz ex ey ez dt useAcc fb =
         ⟨fb.x + dcm_ki * ex * dt * useAcc,
          fb.y + dcm_ki * ey * dt * useAcc,
          fb.z + dcm_ki * ez * dt * useAcc⟩) ∧
    (0 < dcm_ki → SPIN_RATE_LIMIT * SPIN_RATE_LIMIT ≤ gx * gx + gy * gy + gz * gz →
       mahonyIntegralFeedback dcm_ki gx gy gz ex ey ez dt useAcc fb = fb) ∧
    (dcm_ki = 0 →
       mahonyIntegralFeedback dcm_ki gx gy gz ex ey ez dt useAcc fb = ⟨0, 0, 0⟩) := by
  refine ⟨?_, ?_, ?_⟩
  · intro h1 h2
    rw [mahonyIntegralFeedback.eq_def, if_pos h1, if_pos h2]
  · intro h1 h2
    rw [mahonyIntegralFeedback.eq_def, if_pos h1, if_neg (not_lt.mpr h2)]
  · intro h
    rw [mahonyIntegralFeedback.eq_def, if_neg (by rw [h]; exact lt_irrefl 0)]

/-- C4 witness: a spin rate of exactly 20 deg/s holds the integrator, one
below 20 deg/s accumulates, and `ki = 0` resets. -/
theorem C4_integral_feedback_witness :
    mahonyIntegralFeedback (7/10000) 20 0 0 1 1 1 (1/1000) 1 ⟨1, 2, 3⟩ = ⟨1, 2, 3⟩ ∧
    mahonyIntegralFeedback (7/10000) (1999/100) 0 0 1 1 1 (1/1000) 1 ⟨0, 0, 0⟩ =
      ⟨0 + (7/10000) * 1 * (1/1000) * 1, 0 + (7/10000) * 1 * (1/1000) * 1,
       0 + (7/10000) * 1 * (1/1000) * 1⟩ ∧
    mahonyIntegralFeedback 0 1 1 1 1 1 1 1 1 ⟨5, 5, 5⟩ = ⟨0, 0, 0⟩ :=
  ⟨(C4_integral_feedback (7/10000) 20 0 0 1 1 1 (1/1000) 1 ⟨1, 2, 3⟩).2.1
      (by norm_num) (by norm_num [SPIN_RATE_LIMIT]),
   (C4_integral_feedback (7/10000) (1999/100) 0 0 1 1 1 (1/1000) 1 ⟨0, 0, 0⟩).1
      (by norm_num) (by norm_num [SPIN_RATE_LIMIT]),
   (C4_integral_feedback 0 1 1 1 1 1 1 1 1 ⟨5, 5, 5⟩).2.2 rfl⟩

/-- C5: gain selection of `imuCalcKpGain`.  While the attitude-reset window
is open and level recovery is inactive the gain is forced to `25.0`
(whatever the armed state, so it overrides the disarmed 10x boost); and
whenever level recovery is active the gain is overwritten with
`dcm_kp * (1 + level_recovery_coef * levelRecoveryStrength / 1000)`,
regardless of the reset window and the disarmed boost. -/
theorem C5_kp_gain_selection (cfg : KpConfig) (st : KpState) (t : ℕ)
    (useAcc gX gY gZ : ℚ) (armState lvlActive : Bool) (strength : ℚ) :
    ((kpMachineStep st t useAcc gX gY gZ armState).2 = true → lvlActive = false →
       imuCalcKpGain cfg st t useAcc gX gY gZ armState lvlActive strength =
         ATTITUDE_RESET_KP_GAIN) ∧
    (lvlActive = true →
       imuCalcKpGain cfg st t useAcc gX gY gZ armState lvlActive strength =
         cfg.dcm_kp * (1 + cfg.level_recovery_coef * strength / 1000)) := by
  constructor
  · intro h1 h2
    simp [imuCalcKpGain, h1, h2]
  · intro h
    simp [imuCalcKpGain, h]

/-- C5 witness: with the reset-window timer open (`attitudeResetTimeEnd =
1000000`, `now = 500000`, disarmed, quiet gyro, usable accel) the gain is
`25`; with level recovery active and strength 500, coefficient 5 and base
Kp `1/4`, the gain is `1/4 * (1 + 5 * 500 / 1000)`. -/
theorem C5_kp_gain_selection_witness :
    imuCalcKpGain ⟨1/4, 5⟩ ⟨false, 0, 1000000, false⟩ 500000 1 0 0 0 false false 0 =
      ATTITUDE_RESET_KP_GAIN ∧
    imuCalcKpGain ⟨1/4, 5⟩ ⟨false, 0, 0, false⟩ 0 1 0 0 0 true true 500 =
      (1/4 : ℚ) * (1 + 5 * 500 / 1000) :=
  ⟨(C5_kp_gain_selection ⟨1/4, 5⟩ ⟨false, 0, 1000000, false⟩ 500000 1 0 0 0 false false 0).1
      (by norm_num [kpMachineStep, ATTITUDE_RESET_GYRO_LIMIT]) rfl,
   (C5_kp_gain_selection ⟨1/4, 5⟩ ⟨false, 0, 0, false⟩ 0 1 0 0 0 true true 500).2 rfl⟩

/-- C6: `imuQuaternionHeadfreeOffsetSet` returns `true` and stores
`offset = (cos(yaw/2), 0, 0, sin(yaw/2))` — `yaw` extracted from the product
cache `qP` — exactly when `|roll| < 450` and `|pitch| < 450` decidegrees;
otherwise it returns `false` and leaves `offset` unchanged. -/
theorem C6_headfree_offset_set (cosF sinF : ℚ → ℚ) (atan2F : ℚ → ℚ → ℚ)
    (attRoll attPitch : ℤ) (qp : QuatProducts) (ofs : Quat) :
    (|attRoll| < 450 → |attPitch| < 450 →
       imuQuaternionHeadfreeOffsetSet cosF sinF atan2F attRoll attPitch qp ofs =
         (true,
          ⟨cosF (-(atan2F (2 * (qp.wz + qp.xy)) (1 - 2 * (qp.yy + qp.zz))) / 2), 0, 0,
           sinF (-(atan2F (2 * (qp.wz + qp.xy)) (1 - 2 * (qp.yy + qp.zz))) / 2)⟩)) ∧
    (¬(|attRoll| < 450 ∧ |attPitch| < 450) →
       imuQuaternionHeadfreeOffsetSet cosF sinF atan2F attRoll attPitch qp ofs =
         (false, ofs)) := by
  constructor
  · intro h1 h2
    rw [imuQuaternionHeadfreeOffsetSet.eq_def, if_pos ⟨h1, h2⟩]
  · intro h
    rw [imuQuaternionHeadfreeOffsetSet.eq_def, if_neg h]

/-- C6 witness: at `roll = 449` (44.9 deg) the setter succeeds and writes the
yaw-only offset; at `roll = 451` (45.1 deg) it fails and the offset is the
one passed in. -/
theorem C6_headfree_offset_set_witness :
    imuQuaternionHeadfreeOffsetSet (fun v => v) (fun v => v) (fun _ _ => 0)
        449 0 identityProducts ⟨1, 0, 0, 0⟩ = (true, ⟨0, 0, 0, 0⟩) ∧
    imuQuaternionHeadfreeOffsetSet (fun v => v) (fun v => v) (fun _ _ => 0)
        451 0 identityProducts ⟨1, 0, 0, 0⟩ = (false, ⟨1, 0, 0, 0⟩) := by
  constructor
  · rw [(C6_headfree_offset_set (fun v => v) (fun v => v) (fun _ _ => 0)
        449 0 identityProducts ⟨1, 0, 0, 0⟩).1 (by decide) (by decide)]
    norm_num
  · exact (C6_headfree_offset_set (fun v => v) (fun v => v) (fun _ _ => 0)
        451 0 identityProducts ⟨1, 0, 0, 0⟩).2 (by decide)

/-- C7 counterexample: the published correction is not
`throttle_correction_value * sin(angle * pi / 1800)`.  With `acos` modelled
as the constant `1`, `sin` as the identity, `R[2][2] = 1`,
`throttleAngleScale = 100` and `throttle_correction_value = 1000000`
(so `angle = 100` decidegrees in both readings), the source formula
`value * sin(angle / (900 * pi / 2))` rounds to a different integer than
the claimed `value * sin(angle * pi / 1800)`. -/
theorem C7_claim_formula_counterexample :
    calculateThrottleAngleCorrection (fun _ => 1) (fun v => v) 1 100 1000000 ≠
      claimThrottleAngleCorrection (fun _ => 1) (fun v => v) 1 100 1000000 := by
  norm_num [calculateThrottleAngleCorrection, claimThrottleAngleCorrection, lrintf,
    M_PIf, round_eq]

/-- C7 (amended): `calculateThrottleAngleCorrection` returns 0 whenever
`R[2][2] <= 0.015`; otherwise it computes
`angle = lrintf(acos(R[2][2]) * throttleAngleScale)` clamped to at most 900
decidegrees and returns
`lrintf(throttle_correction_value * sin(angle / (900 * pi / 2)))` —
the sine argument is `angle / (900 * pi / 2)`, not the claimed
`angle * pi / 1800`. -/
theorem C7_throttle_angle_correction (acosF sinF : ℚ → ℚ) (c scale : ℚ)
    (value : ℤ) :
    (c ≤ 15/1000 → calculateThrottleAngleCorrection acosF sinF c scale value = 0) ∧
    (15/1000 < c →
       calculateThrottleAngleCorrection acosF sinF c scale value =
         lrintf ((value : ℚ) *
           sinF ((((if lrintf (acosF c * scale) > 900 then 900
                    else lrintf (acosF c * scale)) : ℤ) : ℚ) / (900 * M_PIf / 2)))) := by
  constructor
  · intro h
    rw [calculateThrottleAngleCorrection.eq_def, if_pos h]
  · intro h
    rw [calculateThrottleAngleCorrection.eq_def, if_neg (not_le.mpr h)]

/-- C7 witness: an upright-enough tilt below the cutoff returns 0; above the
cutoff the returned value matches the source sine formula at a concrete
input. -/
theorem C7_throttle_angle_correction_witness :
    calculateThrottleAngleCorrection (fun _ => 1) (fun v => v) (1/100) 100 50 = 0 ∧
    calculateThrottleAngleCorrection (fun _ => 1) (fun v => v) 1 100 0 =
      lrintf (((0 : ℤ) : ℚ) *
        (fun v => v) ((((if lrintf ((fun _ => (1:ℚ)) 1 * 100) > 900 then 900
                         else lrintf ((fun _ => (1:ℚ)) 1 * 100)) : ℤ) : ℚ) /
                      (900 * M_PIf / 2))) :=
  ⟨(C7_throttle_angle_correction (fun _ => 1) (fun v => v) (1/100) 100 50).1 (by norm_num),
   (C7_throttle_angle_correction (fun _ => 1) (fun v => v) 1 100 0).2 (by norm_num)⟩

/-- C8: after `imuUpdateEulerAngles` the published yaw lies in `[0, 3600)`
decidegrees, in head-free mode or not, provided the `atan2` approximation
returns values of magnitude at most pi (the range of `atan2_approx`,
`common/maths.c`, not under `src/`). -/
theorem C8_yaw_in_range (acosF : ℚ → ℚ) (atan2F : ℚ → ℚ → ℚ)
    (hA : ∀ a b, |atan2F a b| ≤ M_PIf) (headfreeMode : Bool) (hf : Quat)
    (r : RMat) :
    0 ≤ (imuUpdateEulerAnglesAttitude acosF atan2F headfreeMode hf r).yaw ∧
    (imuUpdateEulerAnglesAttitude acosF atan2F headfreeMode hf r).yaw < 3600 := by
  have key : ∀ a : ℚ, |a| ≤ M_PIf → |(-a) * (1800 / M_PIf)| ≤ 1800 := by
    intro a ha
    rw [abs_mul, abs_neg, abs_of_pos (show (0:ℚ) < 1800 / M_PIf by norm_num [M_PIf])]
    calc |a| * (1800 / M_PIf) ≤ M_PIf * (1800 / M_PIf) :=
          mul_le_mul_of_nonneg_right ha (by norm_num [M_PIf])
      _ = 1800 := by norm_num [M_PIf]
  cases headfreeMode with
  | false =>
      simp only [imuUpdateEulerAnglesAttitude, Bool.false_eq_true, if_false]
      exact yaw_wrap_mem_range _ (key _ (hA _ _))
  | true =>
      simp only [imuUpdateEulerAnglesAttitude, if_true]
      exact yaw_wrap_mem_range _ (key _ (hA _ _))

/-- C8 witness: the yaw range holds at a concrete state with the `atan2`
model constantly 0 (which satisfies the range bound). -/
theorem C8_yaw_in_range_witness :
    (∀ a b : ℚ, |(fun _ _ => (0:ℚ)) a b| ≤ M_PIf) ∧
    (0 ≤ (imuUpdateEulerAnglesAttitude (fun _ => 0) (fun _ _ => 0) false
            ⟨1, 0, 0, 0⟩ ⟨1, 0, 0, 0, 1, 0, 0, 0, 1⟩).yaw ∧
     (imuUpdateEulerAnglesAttitude (fun _ => 0) (fun _ _ => 0) false
            ⟨1, 0, 0, 0⟩ ⟨1, 0, 0, 0, 1, 0, 0, 0, 1⟩).yaw < 3600) :=
  ⟨fun a b => by norm_num [M_PIf],
   C8_yaw_in_range (fun _ => 0) (fun _ _ => 0) (fun a b => by norm_num [M_PIf]) false
      ⟨1, 0, 0, 0⟩ ⟨1, 0, 0, 0, 1, 0, 0, 0, 1⟩⟩

/-- C9: with `order = 1` the reduced 8-multiply form of
`imuQuaternionMultiplicationProd` produces, in exact arithmetic, the same
quaternion as the straightforward 16-multiply Hamilton product of `q1` and
the quaternion stored in the product cache, followed by the same
normalization. -/
theorem C9_prod_refines_hamilton (invSqrtF : ℚ → ℚ) (q1 : Quat)
    (p : QuatProducts)
    (h : normSq (hamiltonProduct q1 (quatOfProducts p)) ≠ 0) :
    imuQuaternionMultiplicationProd invSqrtF q1 p 1 =
      normalizeWith invSqrtF (hamiltonProduct q1 (quatOfProducts p)) := by
  have hraw : imuQuaternionMultiplicationProdRaw q1 p 1 =
      hamiltonProduct q1 (quatOfProducts p) := by
    cases q1; cases p
    simp only [imuQuaternionMultiplicationProdRaw, hamiltonProduct, quatOfProducts,
      reduceIte, Quat.mk.injEq]
    refine ⟨by ring, by ring, by ring, by ring⟩
  rw [imuQuaternionMultiplicationProd, hraw]

/-- C9 witness: the refinement instantiated at the identity quaternion and
the identity product cache, whose Hamilton product has nonzero norm. -/
theorem C9_prod_refines_hamilton_witness :
    normSq (hamiltonProduct ⟨1, 0, 0, 0⟩ (quatOfProducts identityProducts)) ≠ 0 ∧
    imuQuaternionMultiplicationProd (fun _ => 1) ⟨1, 0, 0, 0⟩ identityProducts 1 =
      normalizeWith (fun _ => 1)
        (hamiltonProduct ⟨1, 0, 0, 0⟩ (quatOfProducts identityProducts)) :=
  ⟨by norm_num [normSq, hamiltonProduct, quatOfProducts, identityProducts],
   C9_prod_refines_hamilton (fun _ => 1) ⟨1, 0, 0, 0⟩ identityProducts
      (by norm_num [normSq, hamiltonProduct, quatOfProducts, identityProducts])⟩

/-- C10: `isUpright` returns `true` whenever the ACC sensor is absent,
regardless of the attitude flag and the tilt comparison; and with the ACC
sensor present it returns `false` whenever the attitude has never been
established, even when `getCosTiltAngle() > smallAngleCosZ` holds. -/
theorem C10_isUpright_gating (est : Bool) (cosTilt smallCos : ℚ) :
    isUpright false est cosTilt smallCos = true ∧
    isUpright true false cosTilt smallCos = false := by
  constructor <;> simp [isUpright]

end EmuIMU
